import Mathlib

/-!
Verification of the coach deployment-orchestration service
(tools/cmd/coach/main.go) against its natural-language specification.

The Go handlers are shallowly embedded as pure Lean functions over an
explicit "world" describing the outcomes of external effects (process
exits, HTTP downloads, directory listings).  Each handler returns the
ordered list of side-effecting events it performs together with its
result, so temporal claims (what happens before an error is returned)
and cleanup claims (which directories are removed) are statements about
the event trace.  Filesystem paths are modelled as lists of path
segments, mirroring filepath.Join.
-/

namespace Coach

/-- A filesystem path, as the list of its segments (filepath.Join is list
append). -/
abbrev Path := List String

/-- Render a path the way Go prints it (only used inside process argument
lists). -/
def pathStr (p : Path) : String := String.intercalate "/" p

/-- Proto enum AssembleRequest.Tag, value TAG_UNSPECIFIED (protobuf
numbering: the unspecified member is 0). -/
def TAG_UNSPECIFIED : Nat := 0

/-- Proto enum AssembleRequest.Tag, value TAG_LATEST. -/
def TAG_LATEST : Nat := 1

/-- Proto enum AssembleRequest.Tag, value TAG_SHA. -/
def TAG_SHA : Nat := 2

/-- AssembleRequest message: repo, ref, optional dockerfile and context
locations, target image, and the tag-strategy enum value (raw numeral,
since proto enums admit unknown numerals). -/
structure AssembleRequest where
  repo : String
  ref : String
  dockerfileLocation : Option String
  contextLocation : Option String
  image : String
  tag : Nat
deriving Repr, DecidableEq

/-- StartRequest message: service name and ref. -/
structure StartRequest where
  service : String
  ref : String
deriving Repr, DecidableEq

/-- validateAssembleRequest from main.go: repo, ref and image must be
non-empty; errors carry the exact source messages. -/
def validateAssembleRequest (req : AssembleRequest) : Except String Unit :=
  if req.repo = "" then .error "repo name is required"
  else if req.ref = "" then .error "ref is required"
  else if req.image = "" then .error "image name is required"
  else .ok ()

/-- validateStartRequest from main.go: service and ref non-empty, and the
service must not be coach itself. -/
def validateStartRequest (req : StartRequest) : Except String Unit :=
  if req.service = "" then .error "service name is required"
  else if req.ref = "" then .error "ref is required"
  else if req.service = "github.com_baely_infra" then .error "coach cannot deploy coach"
  else .ok ()

/-- getDockerTag from main.go: TAG_LATEST yields "latest", TAG_SHA yields
the request ref verbatim, every other numeral (TAG_UNSPECIFIED included)
is the default switch case and errors. -/
def getDockerTag (req : AssembleRequest) : Except String String :=
  if req.tag = TAG_LATEST then .ok "latest"
  else if req.tag = TAG_SHA then .ok req.ref
  else .error "invalid docker tag"

/-- getStringOrDefault from main.go. -/
def getStringOrDefault : Option String → String → String
  | some s, _ => s
  | none, d => d

/-- strings.TrimPrefix, modelled on the character list underlying the
string (Go works on bytes; for the ASCII strings involved the two views
agree): drop the leading occurrence of pre when present, else return s
unchanged. -/
def trimLeading (s pre : String) : String :=
  if pre.data.isPrefixOf s.data then ⟨s.data.drop pre.data.length⟩ else s

/-- A gRPC status: numeric code plus message. -/
structure GrpcStatus where
  code : Nat
  message : String
deriving Repr, DecidableEq

/-- The gRPC Unauthenticated code. -/
def codeUnauthenticated : Nat := 16

/-- authInterceptor from main.go.  The incoming metadata is modelled as
none (no metadata in the context) or some vs where vs is the list of
values of the authorization key (md.Get "authorization"). -/
def authInterceptor (expectedToken : String) (md : Option (List String)) :
    Except GrpcStatus Unit :=
  match md with
  | none => .error ⟨codeUnauthenticated, "metadata not found"⟩
  | some authHeader =>
    match authHeader with
    | [] => .error ⟨codeUnauthenticated, "authorization header required"⟩
    | v :: _ =>
      if trimLeading v "Bearer " = expectedToken then .ok ()
      else .error ⟨codeUnauthenticated, "invalid token"⟩

/-- One observable side effect performed by a handler, in program order. -/
inductive Event where
  | mkdirTemp (p : Path)
  | mkdirAll (p : Path)
  | removeAll (p : Path)
  | proc (cmd : String) (args : List String) (dir : Path)
  | httpGet (url : String)
  | writeFile (p : Path) (content : String)
deriving Repr, DecidableEq

/-- The filesystem contents reached after replaying a trace: writeFile
overwrites the entry at its path, removeAll deletes every entry at or
below its path, other events leave files untouched. -/
def applyEvent (m : List (Path × String)) : Event → List (Path × String)
  | .writeFile p c => (p, c) :: m.filter (fun kv => !(decide (kv.1 = p)))
  | .removeAll q => m.filter (fun kv => !(q.isPrefixOf kv.1))
  | _ => m

/-- Replay a whole trace from the empty filesystem. -/
def runFS (tr : List Event) : List (Path × String) := tr.foldl applyEvent []

/-- Look a path up in a replayed filesystem. -/
def fsLookup : List (Path × String) → Path → Option String
  | [], _ => none
  | (q, c) :: rest, p => if q = p then some c else fsLookup rest p

/-- The content at path p after the trace tr has run. -/
def contentAt (tr : List Event) (p : Path) : Option String :=
  fsLookup (runFS tr) p

/-- Whether an event is a recursive removal that erases path p (removeAll
of p itself or of an ancestor). -/
def removesDir (p : Path) : Event → Bool
  | .removeAll q => q.isPrefixOf p
  | _ => false

/-- p is erased by some removal in the trace. -/
def dirRemoved (tr : List Event) (p : Path) : Bool := tr.any (removesDir p)

/-- Every directory the trace creates (by MkdirTemp or MkdirAll). -/
def createdDirs (tr : List Event) : List Path :=
  tr.filterMap fun e =>
    match e with
    | .mkdirTemp p => some p
    | .mkdirAll p => some p
    | _ => none

/-- Every directory created during the trace is erased by some removal in
the trace. -/
def allCreatedRemoved (tr : List Event) : Bool :=
  (createdDirs tr).all (dirRemoved tr)

/-- The URLs fetched over HTTP during the trace, in order. -/
def httpGetURLs (tr : List Event) : List String :=
  tr.filterMap fun e =>
    match e with
    | .httpGet u => some u
    | _ => none

/-- Whether an event can change the content stored at path x: a write of
x itself or a recursive removal at or above x. -/
def touches (x : Path) : Event → Bool
  | .writeFile p _ => decide (p = x)
  | .removeAll q => q.isPrefixOf x
  | _ => false

/-- Outcomes of the external effects an Assemble call can perform:
the temp directory name MkdirTemp would allocate, whether it succeeds,
and the exit status (true = zero) of the git clone, git checkout and
docker build subprocesses.  osErr stands in for the text of an OS error
whose exact wording the code does not determine. -/
structure AssembleWorld where
  tempDir : Path
  mkdirTempOk : Bool
  cloneOk : Bool
  checkoutOk : Bool
  buildOk : Bool
  osErr : String
deriving Repr, DecidableEq

/-- coachService.cloneRepo: one git clone subprocess, exit status from
the world. -/
def cloneRepo (w : AssembleWorld) (repoURL : String) (destDir : Path) : Event × Bool :=
  (.proc "git" ["clone", repoURL, pathStr destDir] [], w.cloneOk)

/-- coachService.checkoutRef: one git checkout subprocess run in repoDir. -/
def checkoutRef (w : AssembleWorld) (repoDir : Path) (ref : String) : Event × Bool :=
  (.proc "git" ["checkout", ref] repoDir, w.checkoutOk)

/-- coachService.buildDockerImage: one combined docker build-and-push
subprocess run in repoDir. -/
def buildDockerImage (w : AssembleWorld) (repoDir : Path)
    (imageName dockerfile context : String) : Event × Bool :=
  (.proc "docker"
      ["build", "--tag", imageName, "--push", "--platform", "linux/amd64",
       "--file", dockerfile, context] repoDir, w.buildOk)

/-- The part of coachService.Assemble that runs between MkdirTemp and the
deferred RemoveAll: clone, checkout, tag resolution, then the build. -/
def assembleBody (w : AssembleWorld) (req : AssembleRequest)
    (repoURL : String) (repoDir : Path) : List Event × Except String Unit :=
  if !w.cloneOk then
    ([(cloneRepo w repoURL repoDir).1],
     .error ("failed to clone repository: " ++ w.osErr))
  else if !w.checkoutOk then
    ([(cloneRepo w repoURL repoDir).1, (checkoutRef w repoDir req.ref).1],
     .error ("failed to checkout ref " ++ req.ref ++ ": " ++ w.osErr))
  else
    match getDockerTag req with
    | .error e =>
      ([(cloneRepo w repoURL repoDir).1, (checkoutRef w repoDir req.ref).1], .error e)
    | .ok dockerTag =>
      if !w.buildOk then
        ([(cloneRepo w repoURL repoDir).1, (checkoutRef w repoDir req.ref).1,
          (buildDockerImage w repoDir
            ("registry.baileys.dev/" ++ req.image ++ ":" ++ dockerTag)
            (getStringOrDefault req.dockerfileLocation "Dockerfile")
            (getStringOrDefault req.contextLocation ".")).1],
         .error ("failed to build docker image: " ++ w.osErr))
      else
        ([(cloneRepo w repoURL repoDir).1, (checkoutRef w repoDir req.ref).1,
          (buildDockerImage w repoDir
            ("registry.baileys.dev/" ++ req.image ++ ":" ++ dockerTag)
            (getStringOrDefault req.dockerfileLocation "Dockerfile")
            (getStringOrDefault req.contextLocation ".")).1],
         .ok ())

/-- coachService.Assemble: validate, MkdirTemp, run the body with a
deferred RemoveAll of the temp directory on every path past its
creation. -/
def assemble (w : AssembleWorld) (req : AssembleRequest) :
    List Event × Except String Unit :=
  match validateAssembleRequest req with
  | .error e => ([], .error e)
  | .ok _ =>
    if !w.mkdirTempOk then
      ([], .error ("failed to create temp directory: " ++ w.osErr))
    else
      (.mkdirTemp w.tempDir ::
        (assembleBody w req ("https://github.com/baely/" ++ req.repo)
          (w.tempDir ++ [req.repo])).1 ++ [.removeAll w.tempDir],
       (assembleBody w req ("https://github.com/baely/" ++ req.repo)
          (w.tempDir ++ [req.repo])).2)

/-- GitHub directory-listing entry as used by downloadServiceConfig: a
name and the download URL GetDownloadURL returns (empty for entries such
as subdirectories). -/
structure Entry where
  name : String
  downloadURL : String
deriving Repr, DecidableEq

/-- One entry met by filepath.Walk over the mounted override directory,
identified by its path relative to the walk root. -/
inductive WalkEntry where
  | dir (rel : Path)
  | file (rel : Path) (content : String)
deriving Repr, DecidableEq

/-- The relative path of a walk entry. -/
def WalkEntry.rel : WalkEntry → Path
  | .dir r => r
  | .file r _ => r

/-- The relative paths of the file entries of a walk, in walk order. -/
def fileRels (entries : List WalkEntry) : List Path :=
  entries.filterMap fun en =>
    match en with
    | WalkEntry.file r _ => some r
    | _ => none

/-- Outcomes of the external effects a Start call can perform: the GitHub
listing (error text, or the entries of docker/service at the ref), the
temp directory name and MkdirTemp/MkdirAll outcomes, per-URL download
success and body, the mounted override directory (existence and walk
entries, with per-entry read/create success), and the compose pull/up
exit statuses. -/
structure StartWorld where
  getContentsOk : Bool
  getContentsErr : String
  dirContent : List Entry
  tempDir : Path
  mkdirTempOk : Bool
  mkdirAllOk : Bool
  downloadOk : String → Bool
  fileBody : String → String
  mountedExists : Bool
  mounted : List WalkEntry
  walkOk : Path → Bool
  pullOk : Bool
  upOk : Bool
  osErr : String

/-- downloadFileToPath: an HTTP GET of the URL; on success the body is
written to the destination path. -/
def downloadFileToPath (w : StartWorld) (url : String) (fp : Path) :
    List Event × Bool :=
  if w.downloadOk url then
    ([.httpGet url, .writeFile fp (w.fileBody url)], true)
  else
    ([.httpGet url], false)

/-- The download loop of downloadServiceConfig: entries whose download
URL is empty are skipped; a failed download is logged and skipped. -/
def downloadLoop (w : StartWorld) (serviceDir : Path) : List Entry → List Event
  | [] => []
  | e :: rest =>
    if e.downloadURL = "" then downloadLoop w serviceDir rest
    else (downloadFileToPath w e.downloadURL (serviceDir ++ [e.name])).1
           ++ downloadLoop w serviceDir rest

/-- The filepath.Walk body of copyMountedServiceFiles: directories are
recreated under the destination, files are read and rewritten there; the
first failing entry aborts the walk with an error. -/
def copyWalk (w : StartWorld) (destPath : Path) : List WalkEntry → List Event × Bool
  | [] => ([], true)
  | .dir r :: rest =>
    if w.walkOk r then
      let (evs, exitOk) := copyWalk w destPath rest
      (.mkdirAll (destPath ++ r) :: evs, exitOk)
    else ([], false)
  | .file r c :: rest =>
    if w.walkOk r then
      let (evs, exitOk) := copyWalk w destPath rest
      (.writeFile (destPath ++ r) c :: evs, exitOk)
    else ([], false)

/-- copyMountedServiceFiles: a no-op when the mounted directory does not
exist, otherwise the walk. -/
def copyMountedServiceFiles (w : StartWorld) (destPath : Path) :
    List Event × Bool :=
  if !w.mountedExists then ([], true)
  else copyWalk w destPath w.mounted

/-- coachService.downloadServiceConfig: list docker/service at the ref
(the outcome of that one GetContents call is what the world records),
fail on a listing error or an empty listing, create the temp directory
and the service subdirectory beneath it, run the download loop, overlay
the mounted override files (an overlay error is only logged), and return
the service subdirectory. -/
def downloadServiceConfig (w : StartWorld) (serviceName ref : String) :
    List Event × Except String Path :=
  if !w.getContentsOk then
    ([], .error ("failed to get service directory contents: " ++ w.getContentsErr))
  else if w.dirContent = [] then
    ([], .error ("no files found in service directory docker/" ++ serviceName))
  else if !w.mkdirTempOk then
    ([], .error ("failed to create temp directory: " ++ w.osErr))
  else if !w.mkdirAllOk then
    ([.mkdirTemp w.tempDir, .mkdirAll (w.tempDir ++ [serviceName])],
     .error ("failed to create service subdirectory: " ++ w.osErr))
  else
    (.mkdirTemp w.tempDir :: .mkdirAll (w.tempDir ++ [serviceName]) ::
      (downloadLoop w (w.tempDir ++ [serviceName]) w.dirContent ++
       (copyMountedServiceFiles w (w.tempDir ++ [serviceName])).1),
     .ok (w.tempDir ++ [serviceName]))

/-- validateDeployFile: deploy.yaml must exist in the workspace, where
existence is judged against the filesystem produced by the trace so
far. -/
def validateDeployFile (tr : List Event) (workDir : Path) : Except String Unit :=
  if contentAt tr (workDir ++ ["deploy.yaml"]) = none then
    .error "deploy.yaml not found in service directory"
  else .ok ()

/-- coachService.runDockerCompose: one docker compose subprocess against
deploy.yaml in the workspace. -/
def runDockerCompose (workDir : Path) (args : List String) : Event :=
  .proc "docker" (["compose", "-f", "deploy.yaml"] ++ args) workDir

/-- coachService.Start: validate, download the service config, then with
a deferred RemoveAll of the returned workspace directory check
deploy.yaml and run compose pull and compose up -d. -/
def start (w : StartWorld) (req : StartRequest) : List Event × Except String Unit :=
  match validateStartRequest req with
  | .error e => ([], .error e)
  | .ok _ =>
    match (downloadServiceConfig w req.service req.ref).2 with
    | .error e =>
      ((downloadServiceConfig w req.service req.ref).1,
       .error ("failed to download service config: " ++ e))
    | .ok workDir =>
      match validateDeployFile (downloadServiceConfig w req.service req.ref).1 workDir with
      | .error e =>
        ((downloadServiceConfig w req.service req.ref).1 ++ [.removeAll workDir], .error e)
      | .ok _ =>
        if !w.pullOk then
          ((downloadServiceConfig w req.service req.ref).1 ++
            [runDockerCompose workDir ["pull"], .removeAll workDir],
           .error ("failed to pull images: " ++ w.osErr))
        else if !w.upOk then
          ((downloadServiceConfig w req.service req.ref).1 ++
            [runDockerCompose workDir ["pull"], runDockerCompose workDir ["up", "-d"],
             .removeAll workDir],
           .error ("failed to start service: " ++ w.osErr))
        else
          ((downloadServiceConfig w req.service req.ref).1 ++
            [runDockerCompose workDir ["pull"], runDockerCompose workDir ["up", "-d"],
             .removeAll workDir],
           .ok ())

/-- The spec's InvalidArgument class: the request-validation error
messages the two handlers can produce. -/
def isInvalidArgumentClass (m : String) : Bool :=
  ["repo name is required", "ref is required", "image name is required",
   "service name is required", "coach cannot deploy coach"].contains m

/-- The world used for claim C1: MkdirTemp yields tmp/ws and every
subprocess would succeed. -/
def c1World : AssembleWorld := ⟨["tmp", "ws"], true, true, true, true, "exit status 1"⟩

/-- The request used for claim C1: well-formed fields but the
unrecognized tag strategy TAG_UNSPECIFIED. -/
def c1Req : AssembleRequest := ⟨"myrepo", "main", none, none, "img", TAG_UNSPECIFIED⟩

/-- The world used for claim C2: a fully successful Start call. -/
def c2World : StartWorld :=
  ⟨true, "", [⟨"deploy.yaml", "http://u"⟩], ["tmp", "svc"], true, true,
   fun _ => true, fun _ => "remote", false, [], fun _ => true, true, true,
   "exit status 1"⟩

/-- The world used for claim C3: the listing succeeds and is non-empty
but its only entry has no download URL, and a mounted override supplies
deploy.yaml. -/
def c3World : StartWorld :=
  ⟨true, "", [⟨"sub", ""⟩], ["tmp", "c3"], true, true,
   fun _ => true, fun _ => "", true, [WalkEntry.file ["deploy.yaml"] "local"],
   fun _ => true, true, true, "exit status 1"⟩

/-- The world used for claim C7: one remote file deploy.yaml with remote
content, and a mounted override for the same path with local content. -/
def c7World : StartWorld :=
  ⟨true, "", [⟨"deploy.yaml", "http://u"⟩], ["tmp", "t7"], true, true,
   fun _ => true, fun _ => "remote", true, [WalkEntry.file ["deploy.yaml"] "local"],
   fun _ => true, true, true, "exit status 1"⟩

/-! Helper lemmas about lists and strings, and a decidable equality for
Except results. -/

instance {ε α} [DecidableEq ε] [DecidableEq α] : DecidableEq (Except ε α) := fun x y =>
  match x, y with
  | .error e, .error f =>
    if h : e = f then isTrue (congrArg Except.error h)
    else isFalse (fun hc => h (Except.error.inj hc))
  | .error _, .ok _ => isFalse (fun hc => Except.noConfusion hc)
  | .ok _, .error _ => isFalse (fun hc => Except.noConfusion hc)
  | .ok a, .ok b =>
    if h : a = b then isTrue (congrArg Except.ok h)
    else isFalse (fun hc => h (Except.ok.inj hc))

lemma isPre_append_self {α} [BEq α] [LawfulBEq α] (l m : List α) :
    l.isPrefixOf (l ++ m) = true := by
  induction l with
  | nil => cases m <;> rfl
  | cons a t ih => simp [List.isPrefixOf, ih]

lemma isPre_length {α} [BEq α] [LawfulBEq α] :
    ∀ {l₁ l₂ : List α}, l₁.isPrefixOf l₂ = true → l₁.length ≤ l₂.length := by
  intro l₁
  induction l₁ with
  | nil => intro l₂ _; simp
  | cons a t ih =>
    intro l₂ h
    cases l₂ with
    | nil => simp [List.isPrefixOf] at h
    | cons b t₂ =>
      simp only [List.isPrefixOf, Bool.and_eq_true] at h
      simp only [List.length_cons]
      exact Nat.succ_le_succ (ih h.2)

lemma isPre_append_singleton_false {α} [BEq α] [LawfulBEq α] (l : List α) (a : α) :
    (l ++ [a]).isPrefixOf l = false := by
  by_contra h
  have h' : (l ++ [a]).isPrefixOf l = true := by
    cases hb : (l ++ [a]).isPrefixOf l
    · exact absurd hb h
    · rfl
  have := isPre_length h'
  simp at this

lemma drop_len_append {α} (a b : List α) : (a ++ b).drop a.length = b := by
  induction a with
  | nil => rfl
  | cons x t ih => simpa using ih

lemma trimLeading_append (pre s : String) : trimLeading (pre ++ s) pre = s := by
  obtain ⟨a⟩ := pre
  obtain ⟨b⟩ := s
  show trimLeading ⟨a ++ b⟩ ⟨a⟩ = ⟨b⟩
  unfold trimLeading
  rw [show (String.mk (a ++ b)).data = a ++ b from rfl,
      show (String.mk a).data = a from rfl]
  rw [isPre_append_self]
  simp [drop_len_append]

lemma isPre_refl {α} [BEq α] [LawfulBEq α] (l : List α) : l.isPrefixOf l = true := by
  have h := isPre_append_self l ([] : List α)
  simpa using h

/-! Trace-shape lemmas: which kinds of events each pipeline stage can
emit. -/

/-- Every event assembleBody emits is a subprocess invocation. -/
lemma assembleBody_events (w : AssembleWorld) (req : AssembleRequest)
    (repoURL : String) (repoDir : Path) :
    ∀ e ∈ (assembleBody w req repoURL repoDir).1, ∃ c a d, e = Event.proc c a d := by
  intro e he
  unfold assembleBody at he
  simp only [cloneRepo, checkoutRef, buildDockerImage] at he
  split at he
  · simp at he
    exact ⟨_, _, _, he⟩
  · split at he
    · simp at he
      rcases he with rfl | rfl <;> exact ⟨_, _, _, rfl⟩
    · split at he
      · simp at he
        rcases he with rfl | rfl <;> exact ⟨_, _, _, rfl⟩
      · split at he
        · simp at he
          rcases he with rfl | rfl | rfl <;> exact ⟨_, _, _, rfl⟩
        · simp at he
          rcases he with rfl | rfl | rfl <;> exact ⟨_, _, _, rfl⟩

/-- A trace of subprocess invocations creates no directories. -/
lemma createdDirs_of_procs (tr : List Event)
    (h : ∀ e ∈ tr, ∃ c a d, e = Event.proc c a d) : createdDirs tr = [] := by
  induction tr with
  | nil => rfl
  | cons e rest ih =>
    obtain ⟨c, a, d, rfl⟩ := h e (List.mem_cons_self e rest)
    exact ih fun x hx => h x (List.mem_cons_of_mem _ hx)

/-- Every event of the download loop is an HTTP GET of a listed entry's
non-empty URL or the write of such an entry's body one level below the
service directory. -/
lemma downloadLoop_events (w : StartWorld) (sd : Path) :
    ∀ entries, ∀ e ∈ downloadLoop w sd entries,
      (∃ u, e = Event.httpGet u) ∨
      (∃ en, en ∈ entries ∧ en.downloadURL ≠ "" ∧
        e = Event.writeFile (sd ++ [en.name]) (w.fileBody en.downloadURL)) := by
  intro entries
  induction entries with
  | nil => intro e he; simp [downloadLoop] at he
  | cons en rest ih =>
    intro e he
    unfold downloadLoop at he
    by_cases hu : en.downloadURL = ""
    · rw [if_pos hu] at he
      rcases ih e he with h | ⟨en', hmem, hne, hw⟩
      · exact Or.inl h
      · exact Or.inr ⟨en', List.mem_cons_of_mem _ hmem, hne, hw⟩
    · rw [if_neg hu] at he
      unfold downloadFileToPath at he
      by_cases hd : w.downloadOk en.downloadURL
      · rw [if_pos hd] at he
        simp only [List.cons_append, List.nil_append, List.mem_cons] at he
        rcases he with rfl | rfl | he
        · exact Or.inl ⟨_, rfl⟩
        · exact Or.inr ⟨en, List.mem_cons_self en rest, hu, rfl⟩
        · rcases ih e he with h | ⟨en', hmem, hne, hw⟩
          · exact Or.inl h
          · exact Or.inr ⟨en', List.mem_cons_of_mem _ hmem, hne, hw⟩
      · rw [if_neg hd] at he
        simp only [List.cons_append, List.nil_append, List.mem_cons] at he
        rcases he with rfl | he
        · exact Or.inl ⟨_, rfl⟩
        · rcases ih e he with h | ⟨en', hmem, hne, hw⟩
          · exact Or.inl h
          · exact Or.inr ⟨en', List.mem_cons_of_mem _ hmem, hne, hw⟩

/-- Every event of the override walk is a directory creation or a file
write under the destination, the written file being a file entry of the
walk. -/
lemma copyWalk_events (w : StartWorld) (d : Path) :
    ∀ entries, ∀ e ∈ (copyWalk w d entries).1,
      (∃ r, e = Event.mkdirAll (d ++ r)) ∨
      (∃ r c, WalkEntry.file r c ∈ entries ∧ e = Event.writeFile (d ++ r) c) := by
  intro entries
  induction entries with
  | nil => intro e he; simp [copyWalk] at he
  | cons en rest ih =>
    intro e he
    match en with
    | WalkEntry.dir r =>
      unfold copyWalk at he
      by_cases hok : w.walkOk r
      · rw [if_pos hok] at he
        rcases List.mem_cons.mp he with rfl | he
        · exact Or.inl ⟨r, rfl⟩
        · rcases ih e he with ⟨r', he'⟩ | ⟨r', c', hm, he'⟩
          · exact Or.inl ⟨r', he'⟩
          · exact Or.inr ⟨r', c', List.mem_cons_of_mem _ hm, he'⟩
      · rw [if_neg hok] at he
        simp at he
    | WalkEntry.file r c =>
      unfold copyWalk at he
      by_cases hok : w.walkOk r
      · rw [if_pos hok] at he
        rcases List.mem_cons.mp he with rfl | he
        · exact Or.inr ⟨r, c, List.mem_cons_self _ rest, rfl⟩
        · rcases ih e he with ⟨r', he'⟩ | ⟨r', c', hm, he'⟩
          · exact Or.inl ⟨r', he'⟩
          · exact Or.inr ⟨r', c', List.mem_cons_of_mem _ hm, he'⟩
      · rw [if_neg hok] at he
        simp at he

/-- The download loop never removes directories. -/
lemma downloadLoop_no_removeAll (w : StartWorld) (sd : Path) (entries : List Entry)
    (q : Path) : Event.removeAll q ∉ downloadLoop w sd entries := by
  intro hq
  rcases downloadLoop_events w sd entries _ hq with ⟨u, h⟩ | ⟨en, _, _, h⟩ <;> cases h

/-- The override walk never removes directories. -/
lemma copyWalk_no_removeAll (w : StartWorld) (d : Path) (entries : List WalkEntry)
    (q : Path) : Event.removeAll q ∉ (copyWalk w d entries).1 := by
  intro hq
  rcases copyWalk_events w d entries _ hq with ⟨r, h⟩ | ⟨r, c, _, h⟩ <;> cases h

/-- The mounted-file overlay never removes directories. -/
lemma copyMounted_no_removeAll (w : StartWorld) (d : Path) (q : Path) :
    Event.removeAll q ∉ (copyMountedServiceFiles w d).1 := by
  unfold copyMountedServiceFiles
  split
  · simp
  · exact copyWalk_no_removeAll w d w.mounted q

/-- downloadServiceConfig never removes directories. -/
lemma downloadServiceConfig_no_removeAll (w : StartWorld) (svc r : String) (q : Path) :
    Event.removeAll q ∉ (downloadServiceConfig w svc r).1 := by
  intro hq
  unfold downloadServiceConfig at hq
  split at hq
  · simp at hq
  · split at hq
    · simp at hq
    · split at hq
      · simp at hq
      · split at hq
        · rcases List.mem_cons.mp hq with h | h
          · cases h
          · rcases List.mem_cons.mp h with h' | h'
            · cases h'
            · simp at h'
        · rcases List.mem_cons.mp hq with h | h
          · cases h
          · rcases List.mem_cons.mp h with h' | h'
            · cases h'
            · rcases List.mem_append.mp h' with h'' | h''
              · exact downloadLoop_no_removeAll w _ _ q h''
              · exact copyMounted_no_removeAll w _ q h''

/-- On the main path (listing succeeded and non-empty, both directory
creations succeeded) downloadServiceConfig returns the service
subdirectory together with the creation, download and overlay events. -/
lemma downloadServiceConfig_main (w : StartWorld) (svc r : String)
    (hgc : w.getContentsOk = true) (hne : w.dirContent ≠ [])
    (hmt : w.mkdirTempOk = true) (hma : w.mkdirAllOk = true) :
    downloadServiceConfig w svc r =
      (Event.mkdirTemp w.tempDir :: Event.mkdirAll (w.tempDir ++ [svc]) ::
        (downloadLoop w (w.tempDir ++ [svc]) w.dirContent ++
         (copyMountedServiceFiles w (w.tempDir ++ [svc])).1),
       .ok (w.tempDir ++ [svc])) := by
  unfold downloadServiceConfig
  simp [hgc, hne, hmt, hma]

/-- If downloadServiceConfig succeeds, the returned workspace is the
service subdirectory of the temp directory. -/
lemma downloadServiceConfig_ok_shape (w : StartWorld) (svc r : String) (p : Path)
    (h : (downloadServiceConfig w svc r).2 = .ok p) : p = w.tempDir ++ [svc] := by
  unfold downloadServiceConfig at h
  split at h
  · cases h
  · split at h
    · cases h
    · split at h
      · cases h
      · split at h
        · cases h
        · cases h
          rfl

/-- The only recursive removal a Start call can perform is of the
service subdirectory of the temp directory. -/
lemma start_removeAll_only (w : StartWorld) (req : StartRequest) (q : Path)
    (hq : Event.removeAll q ∈ (start w req).1) : q = w.tempDir ++ [req.service] := by
  unfold start at hq
  split at hq
  · simp at hq
  · split at hq
    · exact absurd hq (downloadServiceConfig_no_removeAll w req.service req.ref q)
    · rename_i workDir hok
      have hwd := downloadServiceConfig_ok_shape w req.service req.ref workDir hok
      subst hwd
      split at hq
      · rcases List.mem_append.mp hq with h | h
        · exact absurd h (downloadServiceConfig_no_removeAll w req.service req.ref q)
        · rcases List.mem_cons.mp h with h' | h'
          · exact (Event.removeAll.inj h').symm ▸ rfl
          · simp at h'
      · split at hq
        · rcases List.mem_append.mp hq with h | h
          · exact absurd h (downloadServiceConfig_no_removeAll w req.service req.ref q)
          · rcases List.mem_cons.mp h with h' | h'
            · cases h'
            · rcases List.mem_cons.mp h' with h'' | h''
              · exact (Event.removeAll.inj h'').symm ▸ rfl
              · simp at h''
        · split at hq
          · rcases List.mem_append.mp hq with h | h
            · exact absurd h (downloadServiceConfig_no_removeAll w req.service req.ref q)
            · rcases List.mem_cons.mp h with h' | h'
              · cases h'
              · rcases List.mem_cons.mp h' with h'' | h''
                · cases h''
                · rcases List.mem_cons.mp h'' with h3 | h3
                  · exact (Event.removeAll.inj h3).symm ▸ rfl
                  · simp at h3
          · rcases List.mem_append.mp hq with h | h
            · exact absurd h (downloadServiceConfig_no_removeAll w req.service req.ref q)
            · rcases List.mem_cons.mp h with h' | h'
              · cases h'
              · rcases List.mem_cons.mp h' with h'' | h''
                · cases h''
                · rcases List.mem_cons.mp h'' with h3 | h3
                  · exact (Event.removeAll.inj h3).symm ▸ rfl
                  · simp at h3

/-- Fetched URLs distribute over trace concatenation. -/
lemma httpGetURLs_append (a b : List Event) :
    httpGetURLs (a ++ b) = httpGetURLs a ++ httpGetURLs b := by
  unfold httpGetURLs
  rw [List.filterMap_append]

/-- A leading MkdirTemp fetches nothing. -/
lemma httpGetURLs_cons_mkdirTemp (p : Path) (tr : List Event) :
    httpGetURLs (Event.mkdirTemp p :: tr) = httpGetURLs tr := rfl

/-- A leading MkdirAll fetches nothing. -/
lemma httpGetURLs_cons_mkdirAll (p : Path) (tr : List Event) :
    httpGetURLs (Event.mkdirAll p :: tr) = httpGetURLs tr := rfl

/-- A trace containing no HTTP GET events fetches no URLs. -/
lemma httpGetURLs_eq_nil (tr : List Event) (h : ∀ u, Event.httpGet u ∉ tr) :
    httpGetURLs tr = [] := by
  unfold httpGetURLs
  rw [List.filterMap_eq_nil]
  intro e he
  cases e with
  | httpGet u => exact absurd he (h u)
  | mkdirTemp p => rfl
  | mkdirAll p => rfl
  | removeAll p => rfl
  | proc c a d => rfl
  | writeFile p c => rfl

/-- The override walk performs no HTTP GETs. -/
lemma copyWalk_httpGetURLs (w : StartWorld) (d : Path) (entries : List WalkEntry) :
    httpGetURLs (copyWalk w d entries).1 = [] := by
  apply httpGetURLs_eq_nil
  intro u hu
  rcases copyWalk_events w d entries _ hu with ⟨r, h⟩ | ⟨r, c, _, h⟩ <;> cases h

/-- The mounted-file overlay performs no HTTP GETs. -/
lemma copyMounted_httpGetURLs (w : StartWorld) (d : Path) :
    httpGetURLs (copyMountedServiceFiles w d).1 = [] := by
  unfold copyMountedServiceFiles
  split
  · rfl
  · exact copyWalk_httpGetURLs w d w.mounted

/-- The download loop fetches exactly the non-empty download URLs of the
listed entries, in listing order. -/
lemma downloadLoop_httpGetURLs (w : StartWorld) (sd : Path) :
    ∀ entries, httpGetURLs (downloadLoop w sd entries)
      = (entries.filter fun en => !(en.downloadURL == "")).map Entry.downloadURL := by
  intro entries
  induction entries with
  | nil => rfl
  | cons en rest ih =>
    unfold downloadLoop
    by_cases hu : en.downloadURL = ""
    · rw [if_pos hu, ih]
      have hbe : (en.downloadURL == "") = true := by simp [hu]
      simp [List.filter_cons, hbe]
    · rw [if_neg hu]
      unfold downloadFileToPath
      have hbe : (en.downloadURL == "") = false := by simp [hu]
      simp only [httpGetURLs, List.filterMap_append, List.filterMap_cons] at ih ⊢
      by_cases hd : w.downloadOk en.downloadURL
      · rw [if_pos hd]
        simp only [List.cons_append, List.nil_append, List.filterMap_cons]
        rw [ih]
        simp [List.filter_cons, hbe]
      · rw [if_neg hd]
        simp only [List.cons_append, List.nil_append, List.filterMap_cons]
        rw [ih]
        simp [List.filter_cons, hbe]

/-! Filesystem-replay lemmas, for the override-wins property. -/

lemma mem_fileRels (r : Path) (c : String) (entries : List WalkEntry)
    (h : WalkEntry.file r c ∈ entries) : r ∈ fileRels entries := by
  unfold fileRels
  exact List.mem_filterMap.mpr ⟨WalkEntry.file r c, h, rfl⟩

lemma fileRels_cons_dir (r : Path) (rest : List WalkEntry) :
    fileRels (WalkEntry.dir r :: rest) = fileRels rest := rfl

lemma fileRels_cons_file (r : Path) (c : String) (rest : List WalkEntry) :
    fileRels (WalkEntry.file r c :: rest) = r :: fileRels rest := rfl

lemma fsLookup_filter (m : List (Path × String)) (x : Path) (f : Path × String → Bool)
    (hf : ∀ c, f (x, c) = true) : fsLookup (m.filter f) x = fsLookup m x := by
  induction m with
  | nil => rfl
  | cons kv rest ih =>
    obtain ⟨q, c⟩ := kv
    rw [List.filter_cons]
    by_cases hq : q = x
    · subst hq
      rw [hf c]
      simp [fsLookup]
    · cases hfq : f (q, c)
      · simp only [Bool.false_eq_true, if_false]
        rw [ih]
        simp [fsLookup, hq]
      · simp only [if_true]
        simp only [fsLookup, hq, if_false]
        exact ih

lemma fsLookup_applyEvent_untouched (m : List (Path × String)) (e : Event) (x : Path)
    (h : touches x e = false) :
    fsLookup (applyEvent m e) x = fsLookup m x := by
  cases e with
  | writeFile p c =>
    have hpx : ¬ (p = x) := by simpa [touches] using h
    show fsLookup ((p, c) :: m.filter _) x = fsLookup m x
    simp only [fsLookup, hpx, if_false]
    exact fsLookup_filter m x _ (fun c' => by simp; intro hxp; exact hpx hxp.symm)
  | removeAll q =>
    have hq : q.isPrefixOf x = false := by simpa [touches] using h
    exact fsLookup_filter m x _ (fun c' => by simp [hq])
  | mkdirTemp p => rfl
  | mkdirAll p => rfl
  | proc c a d => rfl
  | httpGet u => rfl

lemma fsLookup_foldl_untouched (tr : List Event) (x : Path)
    (h : ∀ e ∈ tr, touches x e = false) :
    ∀ m, fsLookup (tr.foldl applyEvent m) x = fsLookup m x := by
  induction tr with
  | nil => intro m; rfl
  | cons e rest ih =>
    intro m
    rw [List.foldl_cons]
    rw [ih (fun e' he' => h e' (List.mem_cons_of_mem _ he'))]
    exact fsLookup_applyEvent_untouched m e x (h e (List.mem_cons_self _ _))

lemma fsLookup_write (m : List (Path × String)) (p : Path) (c : String) :
    fsLookup (applyEvent m (.writeFile p c)) p = some c := by
  show fsLookup ((p, c) :: _) p = some c
  simp [fsLookup]

/-- Replaying the override walk over any starting filesystem leaves each
override file's content at its destination path: within the walk, a file
entry's write is never overwritten later (walk file paths are distinct),
so the override wins over anything written before it. -/
lemma copyWalk_wins (w : StartWorld) (dest : Path) (p : Path) (c : String) :
    ∀ entries, (∀ en ∈ entries, w.walkOk en.rel = true) →
      WalkEntry.file p c ∈ entries → (fileRels entries).Nodup →
      ∀ m, fsLookup (((copyWalk w dest entries).1).foldl applyEvent m) (dest ++ p)
        = some c := by
  intro entries
  induction entries with
  | nil =>
    intro _ hmem _ _
    cases hmem
  | cons en rest ih =>
    intro hok hmem hnd m
    cases en with
    | dir r =>
      have hokr : w.walkOk r = true := hok _ (List.mem_cons_self _ _)
      unfold copyWalk
      rw [if_pos hokr]
      show fsLookup (((Event.mkdirAll (dest ++ r) :: (copyWalk w dest rest).1)).foldl
          applyEvent m) (dest ++ p) = some c
      rw [List.foldl_cons]
      have hmem' : WalkEntry.file p c ∈ rest := by
        rcases List.mem_cons.mp hmem with h | h
        · cases h
        · exact h
      have hnd' : (fileRels rest).Nodup := by
        rw [fileRels_cons_dir] at hnd
        exact hnd
      exact ih (fun en' he' => hok en' (List.mem_cons_of_mem _ he')) hmem' hnd' _
    | file r c' =>
      have hokr : w.walkOk r = true := hok _ (List.mem_cons_self _ _)
      unfold copyWalk
      rw [if_pos hokr]
      show fsLookup (((Event.writeFile (dest ++ r) c' :: (copyWalk w dest rest).1)).foldl
          applyEvent m) (dest ++ p) = some c
      rw [List.foldl_cons]
      have hndc := hnd
      rw [fileRels_cons_file] at hndc
      obtain ⟨hnotin, hnd'⟩ := List.nodup_cons.mp hndc
      by_cases hrp : r = p
      · subst hrp
        have hc : c' = c := by
          rcases List.mem_cons.mp hmem with h | h
          · exact ((WalkEntry.file.inj h).2).symm
          · exact absurd (mem_fileRels r c rest h) hnotin
        subst hc
        have huntouched : ∀ e ∈ (copyWalk w dest rest).1, touches (dest ++ r) e = false := by
          intro e he
          rcases copyWalk_events w dest rest e he with ⟨r', he'⟩ | ⟨r', c'', hm, he'⟩
          · subst he'; rfl
          · subst he'
            have hne : ¬ (r' = r) := by
              intro hrr
              subst hrr
              exact hnotin (mem_fileRels r' c'' rest hm)
            simp [touches]
            exact hne
        rw [fsLookup_foldl_untouched _ _ huntouched]
        exact fsLookup_write m (dest ++ r) c'
      · have hmem' : WalkEntry.file p c ∈ rest := by
          rcases List.mem_cons.mp hmem with h | h
          · exact absurd ((WalkEntry.file.inj h).1).symm hrp
          · exact h
        exact ih (fun en' he' => hok en' (List.mem_cons_of_mem _ he')) hmem' hnd' _

/-- A trace extension that touches nothing at x preserves the content at
x. -/
lemma contentAt_append_untouched (tr ps : List Event) (x : Path)
    (h : ∀ e ∈ ps, touches x e = false) :
    contentAt (tr ++ ps) x = contentAt tr x := by
  unfold contentAt runFS
  rw [List.foldl_append]
  exact fsLookup_foldl_untouched ps x h _

/-- After downloadServiceConfig, a mounted override file's content is
what the workspace holds at its path, regardless of what was downloaded
there. -/
lemma downloadServiceConfig_override_wins (w : StartWorld) (svc r : String)
    (p : Path) (c : String)
    (hgc : w.getContentsOk = true) (hne : w.dirContent ≠ [])
    (hmt : w.mkdirTempOk = true) (hma : w.mkdirAllOk = true)
    (hme : w.mountedExists = true)
    (hok : ∀ en ∈ w.mounted, w.walkOk en.rel = true)
    (hmem : WalkEntry.file p c ∈ w.mounted)
    (hnd : (fileRels w.mounted).Nodup) :
    contentAt (downloadServiceConfig w svc r).1 ((w.tempDir ++ [svc]) ++ p) = some c := by
  rw [downloadServiceConfig_main w svc r hgc hne hmt hma]
  unfold contentAt runFS
  rw [List.foldl_cons, List.foldl_cons, List.foldl_append]
  have hcp : (copyMountedServiceFiles w (w.tempDir ++ [svc])).1
      = (copyWalk w (w.tempDir ++ [svc]) w.mounted).1 := by
    unfold copyMountedServiceFiles
    rw [hme]
    rfl
  rw [hcp]
  exact copyWalk_wins w (w.tempDir ++ [svc]) p c w.mounted hok hmem hnd _

/-! The claims. -/

/-- C6: tag resolution: strategy Latest yields the literal tag "latest"
regardless of ref, strategy Sha yields a tag equal to the request's ref
string verbatim, and strategy Unspecified yields an error. -/
theorem c6_tag_resolution (repo ref : String) (dfl cl : Option String) (image : String) :
    getDockerTag ⟨repo, ref, dfl, cl, image, TAG_LATEST⟩ = .ok "latest" ∧
    getDockerTag ⟨repo, ref, dfl, cl, image, TAG_SHA⟩ = .ok ref ∧
    getDockerTag ⟨repo, ref, dfl, cl, image, TAG_UNSPECIFIED⟩ = .error "invalid docker tag" := by
  refine ⟨?_, ?_, ?_⟩ <;> simp [getDockerTag, TAG_LATEST, TAG_SHA, TAG_UNSPECIFIED]

/-- C4 counterexample: a missing bearer credential and an incorrect one
both yield the Unauthenticated code, but the two error responses are not
identical: the messages differ, revealing which cause occurred. -/
theorem c4_counterexample :
    authInterceptor "secret" (some [])
      = .error ⟨codeUnauthenticated, "authorization header required"⟩ ∧
    authInterceptor "secret" (some ["Bearer wrong"])
      = .error ⟨codeUnauthenticated, "invalid token"⟩ ∧
    authInterceptor "secret" (some [])
      ≠ authInterceptor "secret" (some ["Bearer wrong"]) := by
  refine ⟨rfl, ?_, ?_⟩ <;> decide

/-- C4 amended: missing and incorrect credentials both fail with the
Unauthenticated status code, but the two failures carry different
messages, so the response does distinguish the causes. -/
theorem c4_uniform_code_distinct_messages (secret v : String)
    (h : trimLeading v "Bearer " ≠ secret) :
    ∃ m1 m2 : String,
      authInterceptor secret (some []) = .error ⟨codeUnauthenticated, m1⟩ ∧
      authInterceptor secret (some [v]) = .error ⟨codeUnauthenticated, m2⟩ ∧
      m1 ≠ m2 := by
  refine ⟨"authorization header required", "invalid token", rfl, ?_, by decide⟩
  simp [authInterceptor, h]

/-- Witness for C4 amended at secret "secret" and value "Bearer wrong". -/
theorem c4_uniform_code_distinct_messages_witness :
    trimLeading "Bearer wrong" "Bearer " ≠ "secret" ∧
    ∃ m1 m2 : String,
      authInterceptor "secret" (some []) = .error ⟨codeUnauthenticated, m1⟩ ∧
      authInterceptor "secret" (some ["Bearer wrong"]) = .error ⟨codeUnauthenticated, m2⟩ ∧
      m1 ≠ m2 :=
  ⟨by decide, c4_uniform_code_distinct_messages "secret" "Bearer wrong" (by decide)⟩

/-- C9: an authorization value equal to the configured secret and not
carrying the Bearer prefix is accepted (the prefix strip is a no-op on
it), and the prefixed form Bearer-space-secret is accepted as well. -/
theorem c9_bare_token_accepted (secret v : String)
    (hpre : ("Bearer ").data.isPrefixOf v.data = false) (hv : v = secret) :
    authInterceptor secret (some [v]) = .ok () ∧
    authInterceptor secret (some ["Bearer " ++ secret]) = .ok () := by
  subst hv
  constructor
  · have ht : trimLeading v "Bearer " = v := by
      unfold trimLeading
      rw [hpre]
      rfl
    simp [authInterceptor, ht]
  · simp [authInterceptor, trimLeading_append "Bearer " v]

/-- Witness for C9 at secret "tok" presented bare. -/
theorem c9_bare_token_accepted_witness :
    ("Bearer ").data.isPrefixOf ("tok").data = false ∧
    ("tok" : String) = "tok" ∧
    (authInterceptor "tok" (some ["tok"]) = .ok () ∧
     authInterceptor "tok" (some ["Bearer " ++ "tok"]) = .ok ()) :=
  ⟨by decide, rfl, c9_bare_token_accepted "tok" "tok" (by decide) rfl⟩

/-- C5: a request missing a required field is rejected with a
validation-class error and an empty event trace: no directory is created
and no external process is started before the error is returned. -/
theorem c5_validation_before_side_effects
    (wa : AssembleWorld) (ra : AssembleRequest) (ws : StartWorld) (rs : StartRequest) :
    ((ra.repo = "" ∨ ra.ref = "" ∨ ra.image = "") →
      (assemble wa ra).1 = [] ∧
      ∃ m, (assemble wa ra).2 = .error m ∧ isInvalidArgumentClass m = true) ∧
    ((rs.service = "" ∨ rs.ref = "") →
      (start ws rs).1 = [] ∧
      ∃ m, (start ws rs).2 = .error m ∧ isInvalidArgumentClass m = true) := by
  constructor
  · intro h
    by_cases h1 : ra.repo = ""
    · exact ⟨by simp [assemble, validateAssembleRequest, h1],
        "repo name is required", by simp [assemble, validateAssembleRequest, h1], by decide⟩
    · by_cases h2 : ra.ref = ""
      · exact ⟨by simp [assemble, validateAssembleRequest, h1, h2],
          "ref is required", by simp [assemble, validateAssembleRequest, h1, h2], by decide⟩
      · by_cases h3 : ra.image = ""
        · exact ⟨by simp [assemble, validateAssembleRequest, h1, h2, h3],
            "image name is required",
            by simp [assemble, validateAssembleRequest, h1, h2, h3], by decide⟩
        · rcases h with h | h | h <;> contradiction
  · intro h
    by_cases h1 : rs.service = ""
    · exact ⟨by simp [start, validateStartRequest, h1],
        "service name is required", by simp [start, validateStartRequest, h1], by decide⟩
    · by_cases h2 : rs.ref = ""
      · exact ⟨by simp [start, validateStartRequest, h1, h2],
          "ref is required", by simp [start, validateStartRequest, h1, h2], by decide⟩
      · rcases h with h | h <;> contradiction

/-- Witness for C5 at an Assemble request with an empty repo field. -/
theorem c5_validation_before_side_effects_witness :
    (("" : String) = "" ∨ ("main" : String) = "" ∨ ("img" : String) = "") ∧
    ((assemble ⟨["t"], true, true, true, true, "e"⟩ ⟨"", "main", none, none, "img", 1⟩).1 = [] ∧
     ∃ m, (assemble ⟨["t"], true, true, true, true, "e"⟩ ⟨"", "main", none, none, "img", 1⟩).2
            = .error m ∧ isInvalidArgumentClass m = true) :=
  ⟨Or.inl rfl,
   (c5_validation_before_side_effects ⟨["t"], true, true, true, true, "e"⟩
      ⟨"", "main", none, none, "img", 1⟩
      ⟨true, "", [], ["t"], true, true, fun _ => true, fun _ => "", false, [],
       fun _ => true, true, true, "e"⟩ ⟨"svc", "main"⟩).1 (Or.inl rfl)⟩

/-- C1 counterexample: with an unrecognized tag strategy the call does
return the invalid-tag error, but the workspace directory has already
been created and the clone and checkout processes have already run by
then, contradicting rejection before any workspace or process. -/
theorem c1_counterexample :
    (assemble c1World c1Req).2 = .error "invalid docker tag" ∧
    Event.mkdirTemp ["tmp", "ws"] ∈ (assemble c1World c1Req).1 ∧
    Event.proc "git" ["clone", "https://github.com/baely/myrepo", "tmp/ws/myrepo"] []
      ∈ (assemble c1World c1Req).1 ∧
    Event.proc "git" ["checkout", "main"] ["tmp", "ws", "myrepo"]
      ∈ (assemble c1World c1Req).1 := by
  refine ⟨rfl, ?_, ?_, ?_⟩ <;> decide

/-- C1 amended: an unrecognized tag strategy is rejected with the
invalid-tag error, but only after the workspace directory is created and
the clone and checkout subprocesses run; no build subprocess is started,
and the workspace directory is still removed before the call returns. -/
theorem c1_tag_rejection_after_workspace (w : AssembleWorld) (req : AssembleRequest)
    (h1 : req.repo ≠ "") (h2 : req.ref ≠ "") (h3 : req.image ≠ "")
    (h4 : w.mkdirTempOk = true) (h5 : w.cloneOk = true) (h6 : w.checkoutOk = true)
    (h7 : req.tag ≠ TAG_LATEST) (h8 : req.tag ≠ TAG_SHA) :
    (assemble w req).2 = .error "invalid docker tag" ∧
    (assemble w req).1 =
      [.mkdirTemp w.tempDir,
       .proc "git" ["clone", "https://github.com/baely/" ++ req.repo,
                    pathStr (w.tempDir ++ [req.repo])] [],
       .proc "git" ["checkout", req.ref] (w.tempDir ++ [req.repo]),
       .removeAll w.tempDir] := by
  constructor <;>
    simp [assemble, assembleBody, validateAssembleRequest, getDockerTag,
          cloneRepo, checkoutRef, h1, h2, h3, h4, h5, h6, h7, h8]

/-- Witness for C1 amended at the concrete C1 world and request. -/
theorem c1_tag_rejection_after_workspace_witness :
    c1Req.repo ≠ "" ∧ c1Req.ref ≠ "" ∧ c1Req.image ≠ "" ∧
    c1World.mkdirTempOk = true ∧ c1World.cloneOk = true ∧ c1World.checkoutOk = true ∧
    c1Req.tag ≠ TAG_LATEST ∧ c1Req.tag ≠ TAG_SHA ∧
    ((assemble c1World c1Req).2 = .error "invalid docker tag" ∧
     (assemble c1World c1Req).1 =
       [.mkdirTemp c1World.tempDir,
        .proc "git" ["clone", "https://github.com/baely/" ++ c1Req.repo,
                     pathStr (c1World.tempDir ++ [c1Req.repo])] [],
        .proc "git" ["checkout", c1Req.ref] (c1World.tempDir ++ [c1Req.repo]),
        .removeAll c1World.tempDir]) :=
  ⟨by decide, by decide, by decide, rfl, rfl, rfl, by decide, by decide,
   c1_tag_rejection_after_workspace c1World c1Req (by decide) (by decide) (by decide)
     rfl rfl rfl (by decide) (by decide)⟩

/-- C8: a Start request naming the orchestrator itself fails for every
ref, with an empty event trace, so the self-deployment is never
attempted. -/
theorem c8_self_deploy_rejected (w : StartWorld) (ref : String) :
    (start w ⟨"github.com_baely_infra", ref⟩).1 = [] ∧
    ∃ m, (start w ⟨"github.com_baely_infra", ref⟩).2 = .error m := by
  by_cases h : ref = ""
  · subst h
    exact ⟨rfl, ⟨"ref is required", rfl⟩⟩
  · refine ⟨?_, ⟨"coach cannot deploy coach", ?_⟩⟩ <;>
      simp [start, validateStartRequest, h]

/-- C2 counterexample: a successful Start call creates the MkdirTemp
parent directory tmp/svc but only ever removes the service subdirectory
beneath it, so a directory created during the call survives the call. -/
theorem c2_counterexample :
    (start c2World ⟨"blog", "main"⟩).2 = .ok () ∧
    Event.mkdirTemp ["tmp", "svc"] ∈ (start c2World ⟨"blog", "main"⟩).1 ∧
    allCreatedRemoved (start c2World ⟨"blog", "main"⟩).1 = false := by
  refine ⟨rfl, ?_, rfl⟩
  decide

/-- C2 amended: Assemble removes every directory it creates on every
exit path, but Start never removes the MkdirTemp parent directory: its
only removal is of the service subdirectory, so whenever the parent
directory is created during the call some created directory survives the
call. -/
theorem c2_cleanup_only_partial_for_start
    (wa : AssembleWorld) (ra : AssembleRequest) (ws : StartWorld) (rs : StartRequest) :
    allCreatedRemoved (assemble wa ra).1 = true ∧
    Event.removeAll ws.tempDir ∉ (start ws rs).1 ∧
    (Event.mkdirTemp ws.tempDir ∈ (start ws rs).1 →
      allCreatedRemoved (start ws rs).1 = false) := by
  refine ⟨?_, ?_, ?_⟩
  · unfold assemble
    split
    · rfl
    · cases hm : wa.mkdirTempOk
      · simp [hm, allCreatedRemoved, createdDirs]
      · simp only [hm, Bool.not_true, Bool.false_eq_true, if_false]
        have hbody := assembleBody_events wa ra ("https://github.com/baely/" ++ ra.repo)
          (wa.tempDir ++ [ra.repo])
        have hnil := createdDirs_of_procs _ hbody
        have hcd : createdDirs (Event.mkdirTemp wa.tempDir ::
            (assembleBody wa ra ("https://github.com/baely/" ++ ra.repo)
              (wa.tempDir ++ [ra.repo])).1 ++ [Event.removeAll wa.tempDir])
            = [wa.tempDir] := by
          unfold createdDirs at hnil ⊢
          simp [List.filterMap_cons, List.filterMap_append, hnil]
        have hrem : dirRemoved (Event.mkdirTemp wa.tempDir ::
            (assembleBody wa ra ("https://github.com/baely/" ++ ra.repo)
              (wa.tempDir ++ [ra.repo])).1 ++ [Event.removeAll wa.tempDir])
            wa.tempDir = true := by
          unfold dirRemoved
          rw [List.any_eq_true]
          exact ⟨Event.removeAll wa.tempDir, by simp,
            by simp [removesDir, isPre_refl]⟩
        unfold allCreatedRemoved
        rw [hcd]
        simp only [List.all_cons, List.all_nil, Bool.and_true]
        exact hrem
  · intro hq
    have h := start_removeAll_only ws rs _ hq
    have hlen := congrArg List.length h
    simp at hlen
  · intro hmem
    cases hall : allCreatedRemoved (start ws rs).1
    · rfl
    · exfalso
      have hmemc : ws.tempDir ∈ createdDirs (start ws rs).1 := by
        unfold createdDirs
        exact List.mem_filterMap.mpr ⟨Event.mkdirTemp ws.tempDir, hmem, rfl⟩
      unfold allCreatedRemoved at hall
      have hdr := List.all_eq_true.mp hall _ hmemc
      unfold dirRemoved at hdr
      rw [List.any_eq_true] at hdr
      obtain ⟨e, he, hre⟩ := hdr
      cases e with
      | removeAll q =>
        have hq := start_removeAll_only ws rs q he
        subst hq
        rw [removesDir, isPre_append_singleton_false] at hre
        cases hre
      | mkdirTemp p => simp [removesDir] at hre
      | mkdirAll p => simp [removesDir] at hre
      | proc c a d => simp [removesDir] at hre
      | httpGet u => simp [removesDir] at hre
      | writeFile p c => simp [removesDir] at hre

/-- Witness for C2 amended at the concrete C2 world and request. -/
theorem c2_cleanup_only_partial_for_start_witness :
    Event.mkdirTemp ["tmp", "svc"] ∈ (start c2World ⟨"blog", "main"⟩).1 ∧
    allCreatedRemoved (start c2World ⟨"blog", "main"⟩).1 = false :=
  ⟨by decide,
   (c2_cleanup_only_partial_for_start ⟨["t"], true, true, true, true, "e"⟩
      ⟨"r", "main", none, none, "img", 1⟩ c2World ⟨"blog", "main"⟩).2.2 (by decide)⟩

/-- C3 counterexample: a Start call that downloads zero files (the
non-empty listing holds only an entry without a download URL) does not
fail: with a mounted override providing deploy.yaml it succeeds. -/
theorem c3_counterexample :
    c3World.dirContent ≠ [] ∧
    downloadLoop c3World (["tmp", "c3"] ++ ["blog"]) c3World.dirContent = [] ∧
    httpGetURLs (start c3World ⟨"blog", "main"⟩).1 = [] ∧
    (start c3World ⟨"blog", "main"⟩).2 = .ok () := by
  exact ⟨by decide, rfl, rfl, rfl⟩

/-- C3 amended: the download phase fails exactly on a listing failure or
an empty listing, with the source error messages; zero downloaded files
by itself is not an error. -/
theorem c3_fails_on_listing_failure_or_empty_listing
    (w : StartWorld) (req : StartRequest)
    (hs : req.service ≠ "") (hr : req.ref ≠ "")
    (hself : req.service ≠ "github.com_baely_infra") :
    (w.getContentsOk = false →
      start w req = ([], .error ("failed to download service config: " ++
        ("failed to get service directory contents: " ++ w.getContentsErr)))) ∧
    (w.getContentsOk = true → w.dirContent = [] →
      start w req = ([], .error ("failed to download service config: " ++
        ("no files found in service directory docker/" ++ req.service)))) := by
  constructor
  · intro hgc
    unfold start
    rw [show validateStartRequest req = .ok () from by
      simp [validateStartRequest, hs, hr, hself]]
    simp [downloadServiceConfig, hgc]
  · intro hgc hdc
    unfold start
    rw [show validateStartRequest req = .ok () from by
      simp [validateStartRequest, hs, hr, hself]]
    simp [downloadServiceConfig, hgc, hdc]

/-- Witness for C3 amended at a concrete world with a failing listing. -/
theorem c3_fails_on_listing_failure_or_empty_listing_witness :
    ("blog" : String) ≠ "" ∧ ("main" : String) ≠ "" ∧
    ("blog" : String) ≠ "github.com_baely_infra" ∧
    (StartWorld.getContentsOk ⟨false, "404", [], ["t"], true, true, fun _ => true,
        fun _ => "", false, [], fun _ => true, true, true, "e"⟩ = false →
      start ⟨false, "404", [], ["t"], true, true, fun _ => true,
        fun _ => "", false, [], fun _ => true, true, true, "e"⟩ ⟨"blog", "main"⟩
        = ([], .error ("failed to download service config: " ++
            ("failed to get service directory contents: " ++
              StartWorld.getContentsErr ⟨false, "404", [], ["t"], true, true,
                fun _ => true, fun _ => "", false, [], fun _ => true, true, true, "e"⟩)))) :=
  ⟨by decide, by decide, by decide,
   (c3_fails_on_listing_failure_or_empty_listing
      ⟨false, "404", [], ["t"], true, true, fun _ => true, fun _ => "", false, [],
       fun _ => true, true, true, "e"⟩ ⟨"blog", "main"⟩
      (by decide) (by decide) (by decide)).1⟩

/-- C7: when the mounted override directory holds a file at relative
path p, the workspace holds the override's content at that path when the
compose pull step starts and still when the compose up step starts: the
override wins over any downloaded file at the same path, and compose is
what runs next against that workspace. -/
theorem c7_local_override_wins (w : StartWorld) (req : StartRequest)
    (p : Path) (c : String)
    (hs : req.service ≠ "") (hr : req.ref ≠ "")
    (hself : req.service ≠ "github.com_baely_infra")
    (hgc : w.getContentsOk = true) (hne : w.dirContent ≠ [])
    (hmt : w.mkdirTempOk = true) (hma : w.mkdirAllOk = true)
    (hme : w.mountedExists = true)
    (hok : ∀ en ∈ w.mounted, w.walkOk en.rel = true)
    (hmem : WalkEntry.file p c ∈ w.mounted)
    (hnd : (fileRels w.mounted).Nodup)
    (hdeploy : validateDeployFile (downloadServiceConfig w req.service req.ref).1
        (w.tempDir ++ [req.service]) = .ok ())
    (hpull : w.pullOk = true) (hup : w.upOk = true) :
    start w req =
      ((downloadServiceConfig w req.service req.ref).1 ++
        [runDockerCompose (w.tempDir ++ [req.service]) ["pull"],
         runDockerCompose (w.tempDir ++ [req.service]) ["up", "-d"],
         Event.removeAll (w.tempDir ++ [req.service])], .ok ()) ∧
    contentAt (downloadServiceConfig w req.service req.ref).1
      ((w.tempDir ++ [req.service]) ++ p) = some c ∧
    contentAt ((downloadServiceConfig w req.service req.ref).1 ++
        [runDockerCompose (w.tempDir ++ [req.service]) ["pull"]])
      ((w.tempDir ++ [req.service]) ++ p) = some c := by
  have hwin := downloadServiceConfig_override_wins w req.service req.ref p c
    hgc hne hmt hma hme hok hmem hnd
  refine ⟨?_, hwin, ?_⟩
  · unfold start
    rw [show validateStartRequest req = .ok () from by
      simp [validateStartRequest, hs, hr, hself]]
    rw [show (downloadServiceConfig w req.service req.ref).2
        = .ok (w.tempDir ++ [req.service]) from by
      rw [downloadServiceConfig_main w req.service req.ref hgc hne hmt hma]]
    dsimp only
    rw [hdeploy]
    dsimp only
    rw [hpull, hup]
    rfl
  · rw [contentAt_append_untouched]
    · exact hwin
    · intro e he
      rcases List.mem_cons.mp he with h | h
      · subst h; rfl
      · cases h

/-- Witness for C7: with both a downloaded deploy.yaml (content remote)
and a mounted override deploy.yaml (content local), compose observes
local. -/
theorem c7_local_override_wins_witness :
    ("blog" : String) ≠ "" ∧ ("main" : String) ≠ "" ∧
    ("blog" : String) ≠ "github.com_baely_infra" ∧
    c7World.getContentsOk = true ∧ c7World.dirContent ≠ [] ∧
    c7World.mkdirTempOk = true ∧ c7World.mkdirAllOk = true ∧
    c7World.mountedExists = true ∧
    (∀ en ∈ c7World.mounted, c7World.walkOk en.rel = true) ∧
    WalkEntry.file ["deploy.yaml"] "local" ∈ c7World.mounted ∧
    (fileRels c7World.mounted).Nodup ∧
    validateDeployFile (downloadServiceConfig c7World "blog" "main").1
      (c7World.tempDir ++ ["blog"]) = .ok () ∧
    c7World.pullOk = true ∧ c7World.upOk = true ∧
    (start c7World ⟨"blog", "main"⟩ =
      ((downloadServiceConfig c7World "blog" "main").1 ++
        [runDockerCompose (c7World.tempDir ++ ["blog"]) ["pull"],
         runDockerCompose (c7World.tempDir ++ ["blog"]) ["up", "-d"],
         Event.removeAll (c7World.tempDir ++ ["blog"])], .ok ()) ∧
     contentAt (downloadServiceConfig c7World "blog" "main").1
       ((c7World.tempDir ++ ["blog"]) ++ ["deploy.yaml"]) = some "local" ∧
     contentAt ((downloadServiceConfig c7World "blog" "main").1 ++
         [runDockerCompose (c7World.tempDir ++ ["blog"]) ["pull"]])
       ((c7World.tempDir ++ ["blog"]) ++ ["deploy.yaml"]) = some "local") :=
  ⟨by decide, by decide, by decide, rfl, by decide, rfl, rfl, rfl,
   by decide, by decide, by decide, by decide, rfl, rfl,
   c7_local_override_wins c7World ⟨"blog", "main"⟩ ["deploy.yaml"] "local"
     (by decide) (by decide) (by decide) rfl (by decide) rfl rfl rfl
     (by decide) (by decide) (by decide) (by decide) rfl rfl⟩

/-- C10: a Start call fetches exactly the non-empty download URLs of the
listed top-level entries, and every file the download loop writes sits
exactly one level below the service directory, at a listed entry's name:
nested remote content is never downloaded. -/
theorem c10_only_toplevel_entries_with_urls_fetched
    (w : StartWorld) (req : StartRequest)
    (hs : req.service ≠ "") (hr : req.ref ≠ "")
    (hself : req.service ≠ "github.com_baely_infra")
    (hgc : w.getContentsOk = true) (hne : w.dirContent ≠ [])
    (hmt : w.mkdirTempOk = true) (hma : w.mkdirAllOk = true) :
    httpGetURLs (start w req).1
      = (w.dirContent.filter fun en => !(en.downloadURL == "")).map Entry.downloadURL ∧
    ∀ p c, Event.writeFile p c ∈ downloadLoop w (w.tempDir ++ [req.service]) w.dirContent →
      ∃ en, en ∈ w.dirContent ∧ en.downloadURL ≠ "" ∧
        p = (w.tempDir ++ [req.service]) ++ [en.name] := by
  constructor
  · have h2 := copyMounted_httpGetURLs w (w.tempDir ++ [req.service])
    unfold start
    rw [show validateStartRequest req = .ok () from by
      simp [validateStartRequest, hs, hr, hself]]
    rw [downloadServiceConfig_main w req.service req.ref hgc hne hmt hma]
    have htail1 : httpGetURLs [Event.removeAll (w.tempDir ++ [req.service])] = [] := rfl
    have htail2 : httpGetURLs [runDockerCompose (w.tempDir ++ [req.service]) ["pull"],
        Event.removeAll (w.tempDir ++ [req.service])] = [] := rfl
    have htail3 : httpGetURLs [runDockerCompose (w.tempDir ++ [req.service]) ["pull"],
        runDockerCompose (w.tempDir ++ [req.service]) ["up", "-d"],
        Event.removeAll (w.tempDir ++ [req.service])] = [] := rfl
    dsimp only
    split
    · simp only [List.cons_append]
      rw [httpGetURLs_cons_mkdirTemp, httpGetURLs_cons_mkdirAll, List.append_assoc,
          httpGetURLs_append, httpGetURLs_append, downloadLoop_httpGetURLs, h2, htail1]
      simp
    · split
      · simp only [List.cons_append]
        rw [httpGetURLs_cons_mkdirTemp, httpGetURLs_cons_mkdirAll, List.append_assoc,
            httpGetURLs_append, httpGetURLs_append, downloadLoop_httpGetURLs, h2, htail2]
        simp
      · split <;>
        · simp only [List.cons_append]
          rw [httpGetURLs_cons_mkdirTemp, httpGetURLs_cons_mkdirAll, List.append_assoc,
              httpGetURLs_append, httpGetURLs_append, downloadLoop_httpGetURLs, h2, htail3]
          simp
  · intro p c hw
    rcases downloadLoop_events w (w.tempDir ++ [req.service]) w.dirContent _ hw with
      ⟨u, h⟩ | ⟨en, hmem, hne', h⟩
    · cases h
    · exact ⟨en, hmem, hne', (Event.writeFile.inj h).1⟩

/-- Witness for C10 at the concrete C2 world (one entry with a URL). -/
theorem c10_only_toplevel_entries_with_urls_fetched_witness :
    ("blog" : String) ≠ "" ∧ ("main" : String) ≠ "" ∧
    ("blog" : String) ≠ "github.com_baely_infra" ∧
    c2World.getContentsOk = true ∧ c2World.dirContent ≠ [] ∧
    c2World.mkdirTempOk = true ∧ c2World.mkdirAllOk = true ∧
    httpGetURLs (start c2World ⟨"blog", "main"⟩).1
      = (c2World.dirContent.filter fun en => !(en.downloadURL == "")).map Entry.downloadURL :=
  ⟨by decide, by decide, by decide, rfl, by decide, rfl, rfl,
   (c10_only_toplevel_entries_with_urls_fetched c2World ⟨"blog", "main"⟩
      (by decide) (by decide) (by decide) rfl (by decide) rfl rfl).1⟩

end Coach
